import Mathlib

/-!
Verification of the fhevm-react-template SDK core
(`packages/fhevm-sdk/src/client.ts`, `encryption.ts`, `decryption.ts`).

The TypeScript classes are shallowly embedded as Lean structures and
total functions.  External collaborators (the `fhevmjs` backend, the
wallet signer, the decryption gateway) are modelled abstractly: backend
construction is a `World`-threaded allocator so that constructions can
be counted, and signing / gateway round trips are supplied as oracle
functions in a `DecryptEnv`.  JavaScript exceptions are modelled as
`Except String` carrying the thrown message; observable side effects
toward the backend are recorded as explicit event lists.
-/

set_option maxRecDepth 4000

/-- Network table of `EncryptionService` (`encryption.ts`): the object
literal `{ localhost: 31337, sepolia: 11155111, mainnet: 1 }`. -/
def EncryptionService.chainIds : List (String × Nat) :=
  [("localhost", 31337), ("sepolia", 11155111), ("mainnet", 1)]

/-- EncryptionService.getChainId: `chainIds[network] || 31337`
(lookup in the table, falling back to 31337 when absent). -/
def EncryptionService.getChainId (network : String) : Nat :=
  (EncryptionService.chainIds.lookup network).getD 31337

/-- Network URL table of `EncryptionService`. -/
def EncryptionService.urls : List (String × String) :=
  [("localhost", "http://127.0.0.1:8545"),
   ("sepolia", "https://sepolia.infura.io/v3/"),
   ("mainnet", "https://mainnet.infura.io/v3/")]

/-- EncryptionService.getNetworkUrl: `urls[network] || 'http://127.0.0.1:8545'`. -/
def EncryptionService.getNetworkUrl (network : String) : String :=
  (EncryptionService.urls.lookup network).getD "http://127.0.0.1:8545"

/-- Network table of `DecryptionService` (`decryption.ts`), maintained
independently of the one in `encryption.ts`. -/
def DecryptionService.chainIds : List (String × Nat) :=
  [("localhost", 31337), ("sepolia", 11155111), ("mainnet", 1)]

/-- DecryptionService.getChainId: `chainIds[network] || 31337`. -/
def DecryptionService.getChainId (network : String) : Nat :=
  (DecryptionService.chainIds.lookup network).getD 31337

/-- Network URL table of `DecryptionService`. -/
def DecryptionService.urls : List (String × String) :=
  [("localhost", "http://127.0.0.1:8545"),
   ("sepolia", "https://sepolia.infura.io/v3/"),
   ("mainnet", "https://mainnet.infura.io/v3/")]

/-- DecryptionService.getNetworkUrl: `urls[network] || 'http://127.0.0.1:8545'`. -/
def DecryptionService.getNetworkUrl (network : String) : String :=
  (DecryptionService.urls.lookup network).getD "http://127.0.0.1:8545"

/-- Client configuration (`FhevmConfig` in `types.ts`).  The opaque
`provider` is irrelevant to every claim and omitted; the opaque signer
is carried as an identifier so that presence/absence is observable. -/
structure FhevmConfig where
  signer : Option Nat
  network : Option String
  gatewayUrl : Option String
  aclAddress : Option String
deriving DecidableEq, Repr

/-- Resolution of the constructor line
`this.network = config.network || 'localhost'`: an absent (or falsy,
i.e. empty) network string resolves to `"localhost"`. -/
def resolveNetwork : Option String → String
  | none => "localhost"
  | some s => if s = "" then "localhost" else s

/-- A constructed `fhevmjs` backend capability instance, identified by
the allocation counter and remembering the configuration it was
constructed from. -/
structure BackendInstance where
  id : Nat
  chainId : Nat
  networkUrl : String
  gatewayUrl : Option String
  aclAddress : Option String
deriving DecidableEq, Repr

/-- State of `EncryptionService`: the nullable backend handle
(`this.instance`) and the `initialized` flag. -/
structure EncryptionServiceState where
  inst : Option BackendInstance := none
  initialized : Bool := false
deriving DecidableEq, Repr

/-- State of `DecryptionService`: just the `initialized` flag. -/
structure DecryptionServiceState where
  initialized : Bool := false
deriving DecidableEq, Repr

/-- State of a `FhevmClient` object: the fields copied from the config
by the constructor, the private `_isInitialized` flag, and the two
owned services. -/
structure FhevmClient where
  signer : Option Nat
  network : String
  gatewayUrl : Option String
  aclAddress : Option String
  isInit : Bool
  encryption : EncryptionServiceState
  decryption : DecryptionServiceState
deriving DecidableEq, Repr

/-- The `FhevmClient` constructor: copies the config (with the
localhost network default) and creates the two services in their
fresh, uninitialized state. -/
def mkFhevmClient (config : FhevmConfig) : FhevmClient :=
  { signer := config.signer
    network := resolveNetwork config.network
    gatewayUrl := config.gatewayUrl
    aclAddress := config.aclAddress
    isInit := false
    encryption := {}
    decryption := {} }

/-- World state of the external `fhevmjs` module: a fresh-id allocator
plus a counter of how many backend instances have been constructed. -/
structure World where
  nextId : Nat := 0
  constructCount : Nat := 0
deriving DecidableEq, Repr

/-- fhevmjs `createInstance`: constructs a fresh backend capability
instance from the given configuration (always succeeds in this model;
the claims under study only concern the success path). -/
def createInstance (w : World) (chainId : Nat) (networkUrl : String)
    (gatewayUrl : Option String) (aclAddress : Option String) :
    BackendInstance × World :=
  ({ id := w.nextId, chainId := chainId, networkUrl := networkUrl,
     gatewayUrl := gatewayUrl, aclAddress := aclAddress },
   { nextId := w.nextId + 1, constructCount := w.constructCount + 1 })

/-- EncryptionService.hasKeys:
`return this.initialized && this.instance !== null`. -/
def EncryptionService.hasKeys (s : EncryptionServiceState) : Bool :=
  s.initialized && s.inst.isSome

/-- View returned by `FhevmClient.getState` (`FhevmClientState` in
`types.ts`). -/
structure FhevmClientStateView where
  isInitialized : Bool
  network : String
  userAddress : Option String
  hasKeys : Bool
deriving DecidableEq, Repr

/-- FhevmClient.getState: pure projection of the client's fields
(`userAddress` is always `undefined` in the source:
`this.signer ? undefined : undefined`). -/
def FhevmClient.getState (c : FhevmClient) : FhevmClientStateView :=
  { isInitialized := c.isInit
    network := c.network
    userAddress := none
    hasKeys := EncryptionService.hasKeys c.encryption }

/-- FhevmClient.dispose: calls both services' `dispose` (which null the
backend handle and reset the `initialized` flags) and clears
`_isInitialized`. -/
def FhevmClient.dispose (c : FhevmClient) : FhevmClient :=
  { c with
    encryption := { inst := none, initialized := false }
    decryption := { initialized := false }
    isInit := false }

/-- A suspended `FhevmClient.initialize()` call, decomposed at its one
interleaving-relevant suspension point.  From `entry`, the call reads
`_isInitialized`; if clear it enters `EncryptionService.initialize`,
which (when its own flag is clear) invokes `createInstance` and
suspends awaiting it (`awaitingBackend`, remembering the instance
under construction).  On resume the handle is stored, both
`initialized` flags and `_isInitialized` are set, and the call
resolves (`done`); the remaining awaits in the source are synchronous
flag updates and are collapsed into the resume step. -/
inductive InitPhase where
  | entry : InitPhase
  | awaitingBackend : BackendInstance → InitPhase
  | done : InitPhase
deriving DecidableEq, Repr

/-- One cooperative step of a suspended `initialize()` call. -/
def stepInit (w : World) (c : FhevmClient) (p : InitPhase) :
    World × FhevmClient × InitPhase :=
  match p with
  | .entry =>
    if c.isInit then (w, c, .done)
    else if c.encryption.initialized then
      (w, { c with decryption := { initialized := true }, isInit := true }, .done)
    else
      let (inst, w') := createInstance w
        (EncryptionService.getChainId c.network)
        (EncryptionService.getNetworkUrl c.network)
        c.gatewayUrl c.aclAddress
      (w', c, .awaitingBackend inst)
  | .awaitingBackend inst =>
    (w,
     { c with
       encryption := { inst := some inst, initialized := true }
       decryption := { initialized := true }
       isInit := true },
     .done)
  | .done => (w, c, .done)

/-- Cooperative interleaving of two `initialize()` calls on the same
client: the schedule picks which call runs its next step. -/
def runInitTasks : List Bool → World → FhevmClient → InitPhase → InitPhase →
    World × FhevmClient × InitPhase × InitPhase
  | [], w, c, p1, p2 => (w, c, p1, p2)
  | pick :: rest, w, c, p1, p2 =>
    if pick then
      let (w', c', p1') := stepInit w c p1
      runInitTasks rest w' c' p1' p2
    else
      let (w', c', p2') := stepInit w c p2
      runInitTasks rest w' c' p1 p2'

/-- A single `initialize()` call run to completion with no interleaving
(the sequential semantics of `FhevmClient.initialize`). -/
def FhevmClient.initializeRun (w : World) (c : FhevmClient) : World × FhevmClient :=
  let (w1, c1, p1) := stepInit w c .entry
  match p1 with
  | .done => (w1, c1)
  | p => let (w2, c2, _) := stepInit w1 c1 p
         (w2, c2)

/-- Configuration used for concrete executions. -/
def sampleConfig : FhevmConfig :=
  { signer := some 7, network := some "localhost",
    gatewayUrl := some "https://gateway.example", aclAddress := some "0xacl" }

/-- Options passed to the typed encrypt methods (`EncryptOptions`):
the target contract (the source accepts a `Contract` object and reads
its `target` address; both branches yield the address string carried
here) and the user address. -/
structure EncryptOptions where
  contract : String
  userAddress : String
deriving DecidableEq, Repr

/-- A backend encrypted-input session (the object returned by the
fhevmjs instance's `createEncryptedInput`), modelled abstractly as the
(contract, user) pair it is bound to plus the list of
(bit-width, value) pairs added so far. -/
structure EncSession where
  contractAddress : String
  userAddress : String
  added : List (Nat × Int)
deriving DecidableEq, Repr

/-- Backend session `add32`: appends a 32-bit value to the session.
The backend is external; nothing here validates the value. -/
def EncSession.add32 (s : EncSession) (value : Int) : EncSession :=
  { s with added := s.added ++ [(32, value)] }

/-- Encrypted-input wire shape (`EncryptedInput` in `types.ts`). -/
structure EncryptedInput where
  handles : List String
  inputProof : String
deriving DecidableEq, Repr

/-- Backend session terminal `encrypt()`: seals the session,
producing one opaque handle per added value plus an opaque proof blob
(the blobs' contents are outside this model). -/
def EncSession.encrypt (s : EncSession) : EncryptedInput :=
  { handles := s.added.map (fun _ => "handle"), inputProof := "proof" }

/-- Observable calls into the encryption backend made by a typed
encrypt method. -/
inductive EncEvent where
  | sessionOpened : String → String → EncEvent
  | add32 : Int → EncEvent
  | sealedSession : EncEvent
deriving DecidableEq, Repr

/-- EncryptionService.createEncryptedInput: throws
"Encryption service not initialized" unless `initialized` is set and
the backend handle is non-null; otherwise opens a fresh session bound
to the (contract, user) pair. -/
def EncryptionService.createEncryptedInput (c : FhevmClient)
    (contractAddress userAddress : String) : Except String EncSession :=
  if !c.encryption.initialized || !c.encryption.inst.isSome then
    .error "Encryption service not initialized"
  else
    .ok { contractAddress := contractAddress, userAddress := userAddress, added := [] }

/-- EncryptionService.encryptU32: opens a single-value session, calls
`add32(value)` and seals it with `encrypt()`.  The source performs no
range validation on `value` before delegating to the backend.  The
second component records the backend calls made. -/
def EncryptionService.encryptU32 (c : FhevmClient) (value : Int)
    (options : EncryptOptions) : Except String EncryptedInput × List EncEvent :=
  match EncryptionService.createEncryptedInput c options.contract options.userAddress with
  | .error e => (.error e, [])
  | .ok input =>
    let input := input.add32 value
    (.ok input.encrypt,
     [.sessionOpened options.contract options.userAddress, .add32 value, .sealedSession])

/-- Decryption request (`DecryptionRequest` in `types.ts`). -/
structure DecryptionRequest where
  contractAddress : String
  userAddress : String
  handle : Int
deriving DecidableEq, Repr, Inhabited

/-- Decryption result (`DecryptionResult` in `types.ts`); the
timestamp is the local `Date.now()` at completion. -/
structure DecryptionResult where
  value : Int
  timestamp : Nat
deriving DecidableEq, Repr, Inhabited

/-- Observable external effects of a `userDecrypt` call: per-call
backend construction (`createInstance`), the typed-data signature
request to the wallet, and the gateway round trip (`reencrypt`). -/
inductive DecEvent where
  | backendConstructed : Nat → String → DecEvent
  | signatureRequested : String → String → DecEvent
  | gatewayCalled : Int → String → String → String → DecEvent
deriving DecidableEq, Repr

/-- Oracles for the external collaborators of `userDecrypt`: the
wallet's `signTypedData` over the EIP-712 payload binding
(contract, user), the gateway's `reencrypt`, and the local clock. -/
structure DecryptEnv where
  signTypedData : Nat → String → String → Except String String
  reencrypt : Int → String → String → String → Except String Int
  now : Nat

/-- DecryptionService.userDecrypt: throws if the service is not
initialized; then requires a signer ("Signer required for user
decryption") before anything else; only then constructs a per-call
backend instance, derives the EIP-712 payload, requests the signature
and performs the gateway round trip, wrapping any failure in
"Failed to decrypt value: ...".  The second component records the
external effects in order. -/
def DecryptionService.userDecrypt (c : FhevmClient) (env : DecryptEnv)
    (request : DecryptionRequest) : Except String DecryptionResult × List DecEvent :=
  if !c.decryption.initialized then
    (.error "Decryption service not initialized", [])
  else
    match c.signer with
    | none => (.error "Signer required for user decryption", [])
    | some sg =>
      let chainId := DecryptionService.getChainId c.network
      let networkUrl := DecryptionService.getNetworkUrl c.network
      match env.signTypedData sg request.contractAddress request.userAddress with
      | .error e =>
        (.error ("Failed to decrypt value: " ++ e),
         [.backendConstructed chainId networkUrl,
          .signatureRequested request.contractAddress request.userAddress])
      | .ok signature =>
        match env.reencrypt request.handle request.contractAddress
            request.userAddress signature with
        | .error e =>
          (.error ("Failed to decrypt value: " ++ e),
           [.backendConstructed chainId networkUrl,
            .signatureRequested request.contractAddress request.userAddress,
            .gatewayCalled request.handle request.contractAddress
              request.userAddress signature])
        | .ok v =>
          (.ok { value := v, timestamp := env.now },
           [.backendConstructed chainId networkUrl,
            .signatureRequested request.contractAddress request.userAddress,
            .gatewayCalled request.handle request.contractAddress
              request.userAddress signature])

/-- Value semantics of `Promise.all` over an already-created list of
settled outcomes: rejects when any element rejects, otherwise resolves
to the list of values in positional order. -/
def promiseAll {α : Type} : List (Except String α) → Except String (List α)
  | [] => .ok []
  | .error e :: _ => .error e
  | .ok v :: xs =>
    match promiseAll xs with
    | .error e => .error e
    | .ok vs => .ok (v :: vs)

/-- DecryptionService.batchUserDecrypt:
`Promise.all(requests.map(request => this.userDecrypt(request)))`. -/
def DecryptionService.batchUserDecrypt (c : FhevmClient) (env : DecryptEnv)
    (requests : List DecryptionRequest) : Except String (List DecryptionResult) :=
  promiseAll (requests.map (fun request => (DecryptionService.userDecrypt c env request).1))

/- ### Helper lemmas on `promiseAll` -/

theorem promiseAll_isOk_false_of_mem {α : Type} (l : List (Except String α))
    (x : Except String α) (hx : x ∈ l) (hfail : x.isOk = false) :
    (promiseAll l).isOk = false := by
  induction l with
  | nil => cases hx
  | cons y ys ih =>
    rcases List.mem_cons.mp hx with h | h
    · subst h
      cases x with
      | error e => simp [promiseAll, Except.isOk, Except.toBool]
      | ok v => simp [Except.isOk, Except.toBool] at hfail
    · have := ih h
      cases y with
      | error e => simp [promiseAll, Except.isOk, Except.toBool]
      | ok v =>
        cases hys : promiseAll ys with
        | error e => simp [promiseAll, hys, Except.isOk, Except.toBool]
        | ok vs => rw [hys] at this; simp [Except.isOk, Except.toBool] at this

theorem promiseAll_map_ok_pointwise {α β : Type} [Inhabited α] [Inhabited β]
    (f : β → Except String α) (l : List β) (vs : List α)
    (h : promiseAll (l.map f) = .ok vs) :
    vs.length = l.length ∧ ∀ i, i < l.length → f l[i]! = .ok vs[i]! := by
  induction l generalizing vs with
  | nil =>
    simp [promiseAll] at h
    subst h
    exact ⟨rfl, fun i hi => absurd hi (by simp)⟩
  | cons b bs ih =>
    rw [List.map_cons] at h
    cases hfb : f b with
    | error e => rw [hfb] at h; simp [promiseAll] at h
    | ok v =>
      rw [hfb] at h
      cases hys : promiseAll (bs.map f) with
      | error e => rw [promiseAll, hys] at h; cases h
      | ok ws =>
        rw [promiseAll, hys] at h
        cases h
        obtain ⟨hlen, hpt⟩ := ih ws hys
        refine ⟨by simp [hlen], ?_⟩
        intro i hi
        cases i with
        | zero => simpa using hfb
        | succ j =>
          have hj : j < bs.length := by simpa using hi
          have := hpt j hj
          simpa using this

/- ### Concrete fixtures for closed executions and witnesses -/

/-- A client that has completed `initialize()` successfully (Ready). -/
def readyClient : FhevmClient :=
  ((mkFhevmClient sampleConfig).initializeRun {}).2

/-- Configuration without a signer. -/
def noSignerConfig : FhevmConfig :=
  { signer := none, network := some "sepolia", gatewayUrl := none, aclAddress := none }

/-- A client configured without a signer that has completed
`initialize()` successfully. -/
def noSignerClient : FhevmClient :=
  ((mkFhevmClient noSignerConfig).initializeRun {}).2

/-- Sample encrypt options. -/
def sampleOptions : EncryptOptions :=
  { contract := "0xcontract", userAddress := "0xuser" }

/-- Sample external environment: signing fails for contract "0xfail"
and succeeds otherwise; the gateway returns `handle + 1`. -/
def sampleEnv : DecryptEnv :=
  { signTypedData := fun _ contractAddress _ =>
      if contractAddress = "0xfail" then .error "user rejected signing" else .ok "0xsig"
    reencrypt := fun handle _ _ _ => .ok (handle + 1)
    now := 1700 }

/-- Sample decryption request that succeeds under `sampleEnv`. -/
def reqA : DecryptionRequest :=
  { contractAddress := "0xc", userAddress := "0xu", handle := 10 }

/-- Second sample decryption request that succeeds under `sampleEnv`. -/
def reqB : DecryptionRequest :=
  { contractAddress := "0xc", userAddress := "0xu", handle := 20 }

/-- Sample decryption request whose signature step fails under
`sampleEnv`. -/
def reqFail : DecryptionRequest :=
  { contractAddress := "0xfail", userAddress := "0xu", handle := 30 }

/- ### Claim theorems on encryption and decryption -/

/-- C2 (failing execution): `encryptU32` with the out-of-range values
-1 and 2^32 on a Ready client is not rejected — in both cases the
backend session is opened, `add32` is invoked with the out-of-range
value, and the session is sealed, returning an ok `EncryptedInput`
instead of an `EncryptionError`; no validation happens before the
backend is invoked. -/
theorem encryptU32_accepts_out_of_range :
    (EncryptionService.encryptU32 readyClient (-1) sampleOptions).1 =
      .ok { handles := ["handle"], inputProof := "proof" } ∧
    (EncryptionService.encryptU32 readyClient (-1) sampleOptions).2 =
      [.sessionOpened "0xcontract" "0xuser", .add32 (-1), .sealedSession] ∧
    (EncryptionService.encryptU32 readyClient 4294967296 sampleOptions).1 =
      .ok { handles := ["handle"], inputProof := "proof" } ∧
    (EncryptionService.encryptU32 readyClient 4294967296 sampleOptions).2 =
      [.sessionOpened "0xcontract" "0xuser", .add32 4294967296, .sealedSession] := by
  refine ⟨rfl, rfl, rfl, rfl⟩

/-- C6: on an initialized decryption service whose client has no
signer, `userDecrypt` rejects every request with the signer-required
error and performs no external effect at all — no backend
construction, no signature request, no gateway call. -/
theorem userDecrypt_requires_signer (c : FhevmClient) (env : DecryptEnv)
    (request : DecryptionRequest)
    (hinit : c.decryption.initialized = true) (hsig : c.signer = none) :
    DecryptionService.userDecrypt c env request =
      (.error "Signer required for user decryption", []) := by
  simp [DecryptionService.userDecrypt, hinit, hsig]

/-- Witness for `userDecrypt_requires_signer` on the concrete
signerless client. -/
theorem userDecrypt_requires_signer_witness :
    (noSignerClient.decryption.initialized = true ∧ noSignerClient.signer = none) ∧
    DecryptionService.userDecrypt noSignerClient sampleEnv reqA =
      (.error "Signer required for user decryption", []) := by
  refine ⟨⟨rfl, rfl⟩, userDecrypt_requires_signer noSignerClient sampleEnv reqA rfl rfl⟩

/-- C4: `batchUserDecrypt` is all-or-nothing — whenever any request in
the list fails its individual `userDecrypt`, the whole batch call
rejects, so no (partial or complete) result list is returned. -/
theorem batchUserDecrypt_all_or_nothing (c : FhevmClient) (env : DecryptEnv)
    (requests : List DecryptionRequest)
    (h : ∃ r ∈ requests, ((DecryptionService.userDecrypt c env r).1).isOk = false) :
    (DecryptionService.batchUserDecrypt c env requests).isOk = false := by
  obtain ⟨r, hr, hfail⟩ := h
  exact promiseAll_isOk_false_of_mem _ _ (List.mem_map_of_mem _ hr) hfail

/-- Witness for `batchUserDecrypt_all_or_nothing`: a three-request
batch whose middle request fails rejects as a whole. -/
theorem batchUserDecrypt_all_or_nothing_witness :
    (∃ r ∈ [reqA, reqFail, reqB],
      ((DecryptionService.userDecrypt readyClient sampleEnv r).1).isOk = false) ∧
    (DecryptionService.batchUserDecrypt readyClient sampleEnv
      [reqA, reqFail, reqB]).isOk = false := by
  refine ⟨⟨reqFail, List.mem_cons_of_mem _ (List.mem_cons_self _ _), rfl⟩,
    batchUserDecrypt_all_or_nothing readyClient sampleEnv [reqA, reqFail, reqB]
      ⟨reqFail, List.mem_cons_of_mem _ (List.mem_cons_self _ _), rfl⟩⟩

/-- C5: whenever `batchUserDecrypt` succeeds, the result list has the
same length as the request list and the i-th result is exactly the
result of `userDecrypt` on the i-th request (positional assembly, as
`Promise.all` guarantees independently of completion order). -/
theorem batchUserDecrypt_preserves_order (c : FhevmClient) (env : DecryptEnv)
    (requests : List DecryptionRequest) (results : List DecryptionResult)
    (h : DecryptionService.batchUserDecrypt c env requests = .ok results) :
    results.length = requests.length ∧
    ∀ i, i < requests.length →
      (DecryptionService.userDecrypt c env requests[i]!).1 = .ok results[i]! :=
  promiseAll_map_ok_pointwise
    (fun request => (DecryptionService.userDecrypt c env request).1) requests results h

/-- Witness for `batchUserDecrypt_preserves_order` on a concrete
two-request batch that fully succeeds. -/
theorem batchUserDecrypt_preserves_order_witness :
    (DecryptionService.batchUserDecrypt readyClient sampleEnv [reqA, reqB] =
      .ok [{ value := 11, timestamp := 1700 }, { value := 21, timestamp := 1700 }]) ∧
    (([{ value := 11, timestamp := 1700 },
       { value := 21, timestamp := 1700 }] : List DecryptionResult).length =
        [reqA, reqB].length ∧
     ∀ i, i < [reqA, reqB].length →
       (DecryptionService.userDecrypt readyClient sampleEnv [reqA, reqB][i]!).1 =
         .ok ([{ value := 11, timestamp := 1700 },
               { value := 21, timestamp := 1700 }] : List DecryptionResult)[i]!) := by
  refine ⟨rfl, batchUserDecrypt_preserves_order readyClient sampleEnv [reqA, reqB] _ rfl⟩

/- ### Claim theorems on the client lifecycle -/

/-- C1 (failing execution): two `initialize()` calls interleaved so
that the second enters while the first is suspended awaiting backend
construction.  Both calls run to completion and the backend is
constructed twice — the boolean `_isInitialized`/`initialized` flags
are only set after the await, so the second caller races the first
instead of awaiting it, contradicting the single-construction claim. -/
theorem concurrent_initialize_constructs_twice :
    (runInitTasks [true, false, true, false] {} (mkFhevmClient sampleConfig)
      .entry .entry).1.constructCount = 2 ∧
    (runInitTasks [true, false, true, false] {} (mkFhevmClient sampleConfig)
      .entry .entry).2.2.1 = InitPhase.done ∧
    (runInitTasks [true, false, true, false] {} (mkFhevmClient sampleConfig)
      .entry .entry).2.2.2 = InitPhase.done := by
  refine ⟨rfl, rfl, rfl⟩

/-- C7: two sequential `initialize()` calls — the first (from a fresh
client) constructs the backend exactly once; the second returns at the
`_isInitialized` check, succeeds, and leaves the world and the entire
client state (both services included) unchanged. -/
theorem sequential_initialize_idempotent (config : FhevmConfig) :
    ((mkFhevmClient config).initializeRun {}).1.constructCount = 1 ∧
    FhevmClient.initializeRun ((mkFhevmClient config).initializeRun {}).1
        ((mkFhevmClient config).initializeRun {}).2 =
      (mkFhevmClient config).initializeRun {} ∧
    ((mkFhevmClient config).initializeRun {}).2.isInit = true := by
  refine ⟨rfl, rfl, rfl⟩

/-- C3 (counterexample): the Disposed state is not terminal — on a
concrete client, `initialize(); dispose(); initialize()` ends with
`_isInitialized = true` and `hasKeys = true`, i.e. the disposed client
is returned to a fully usable Ready state by a plain `initialize()`
call, refuting the claim that no operation sequence can do so. -/
theorem dispose_not_terminal_counterexample :
    (FhevmClient.initializeRun
        ((mkFhevmClient sampleConfig).initializeRun {}).1
        ((mkFhevmClient sampleConfig).initializeRun {}).2.dispose).2.isInit = true ∧
    EncryptionService.hasKeys
      (FhevmClient.initializeRun
        ((mkFhevmClient sampleConfig).initializeRun {}).1
        ((mkFhevmClient sampleConfig).initializeRun {}).2.dispose).2.encryption = true := by
  refine ⟨rfl, rfl⟩

/-- C3 (amended): `dispose()` returns the client to an uninitialized
state rather than a terminal one — from any client state and world,
calling `initialize()` after `dispose()` succeeds, constructs one
fresh backend instance, and leaves the client usable
(`_isInitialized = true` and `hasKeys = true`). -/
theorem dispose_then_initialize_reusable (w : World) (c : FhevmClient) :
    (FhevmClient.initializeRun w c.dispose).2.isInit = true ∧
    EncryptionService.hasKeys (FhevmClient.initializeRun w c.dispose).2.encryption = true ∧
    (FhevmClient.initializeRun w c.dispose).1.constructCount = w.constructCount + 1 := by
  refine ⟨rfl, rfl, rfl⟩

/- ### Claim theorems on the network tables -/

/-- C8: network resolution is total with a localhost fallback — every
unknown network string resolves to chain id 31337 and RPC
`http://127.0.0.1:8545`; the three known names resolve to their table
entries; and an omitted network resolves (via the constructor default)
to the localhost entry. -/
theorem network_resolution_total (s : String)
    (h1 : s ≠ "localhost") (h2 : s ≠ "sepolia") (h3 : s ≠ "mainnet") :
    EncryptionService.getChainId s = 31337 ∧
    EncryptionService.getNetworkUrl s = "http://127.0.0.1:8545" ∧
    EncryptionService.getChainId "localhost" = 31337 ∧
    EncryptionService.getChainId "sepolia" = 11155111 ∧
    EncryptionService.getChainId "mainnet" = 1 ∧
    EncryptionService.getNetworkUrl "localhost" = "http://127.0.0.1:8545" ∧
    EncryptionService.getNetworkUrl "sepolia" = "https://sepolia.infura.io/v3/" ∧
    EncryptionService.getNetworkUrl "mainnet" = "https://mainnet.infura.io/v3/" ∧
    EncryptionService.getChainId (resolveNetwork none) = 31337 ∧
    EncryptionService.getNetworkUrl (resolveNetwork none) = "http://127.0.0.1:8545" := by
  have e1 : (s == "localhost") = false := beq_eq_false_iff_ne.mpr h1
  have e2 : (s == "sepolia") = false := beq_eq_false_iff_ne.mpr h2
  have e3 : (s == "mainnet") = false := beq_eq_false_iff_ne.mpr h3
  refine ⟨?_, ?_, by decide, by decide, by decide, by decide, by decide, by decide,
    by decide, by decide⟩
  · simp [EncryptionService.getChainId, EncryptionService.chainIds, List.lookup, e1, e2, e3]
  · simp [EncryptionService.getNetworkUrl, EncryptionService.urls, List.lookup, e1, e2, e3]

/-- Witness for `network_resolution_total` at the unknown network
string "goerli". -/
theorem network_resolution_total_witness :
    ("goerli" ≠ "localhost" ∧ "goerli" ≠ "sepolia" ∧ "goerli" ≠ "mainnet") ∧
    (EncryptionService.getChainId "goerli" = 31337 ∧
     EncryptionService.getNetworkUrl "goerli" = "http://127.0.0.1:8545" ∧
     EncryptionService.getChainId "localhost" = 31337 ∧
     EncryptionService.getChainId "sepolia" = 11155111 ∧
     EncryptionService.getChainId "mainnet" = 1 ∧
     EncryptionService.getNetworkUrl "localhost" = "http://127.0.0.1:8545" ∧
     EncryptionService.getNetworkUrl "sepolia" = "https://sepolia.infura.io/v3/" ∧
     EncryptionService.getNetworkUrl "mainnet" = "https://mainnet.infura.io/v3/" ∧
     EncryptionService.getChainId (resolveNetwork none) = 31337 ∧
     EncryptionService.getNetworkUrl (resolveNetwork none) = "http://127.0.0.1:8545") :=
  ⟨⟨by decide, by decide, by decide⟩,
   network_resolution_total "goerli" (by decide) (by decide) (by decide)⟩

/-- C10: the two independently maintained network tables agree — for
every network string, `EncryptionService` and `DecryptionService`
resolve the same chain id and the same RPC URL. -/
theorem network_tables_agree (s : String) :
    EncryptionService.getChainId s = DecryptionService.getChainId s ∧
    EncryptionService.getNetworkUrl s = DecryptionService.getNetworkUrl s :=
  ⟨rfl, rfl⟩

/-- C9: `getState` is a total (never-throwing) pure read; on a freshly
constructed client it reports `isInitialized = false` and
`hasKeys = false`, and in every state `hasKeys` equals the conjunction
of the encryption service being initialized and its backend handle
being non-null. -/
theorem getState_pure_read (config : FhevmConfig) (c : FhevmClient) :
    (mkFhevmClient config).getState.isInitialized = false ∧
    (mkFhevmClient config).getState.hasKeys = false ∧
    c.getState.hasKeys = (c.encryption.initialized && c.encryption.inst.isSome) :=
  ⟨rfl, rfl, rfl⟩
